import Mathlib

/-!
Verification development for the batch OCR worker in `src/main.py`
(a PDF-to-Word utility driven by an external generative-AI OCR service).

The worker (`OcrWorker`) is embedded shallowly:

* External effects (progress signals, the OCR network call, the document
  write, the per-file completion signal, the batch-completion signal and
  the error signal) are recorded as an explicit trace of `Ev` events,
  in emission order.
* The outcomes of the external collaborators are oracles threaded in as
  data: `Except String _` values model a Python call that either returns
  or raises (`.error e` carries the exception text).
* The mutable cancellation flag `self.is_running` (set only by `stop`)
  is modelled as a function `flag : Nat → Bool` of the number of reads
  performed so far; every place the Python code reads the flag consumes
  one read index.  A flag that is never cleared is `∀ t, flag t = true`;
  `stop`-only mutation is the monotonicity hypothesis `FlagStopsForever`.
* `os.path` helpers are modelled in their POSIX form ('/' separator).
-/

/-- Model of one observable effect of `OcrWorker`, in emission order.
Constructors carry the data interpolated into the corresponding Python
f-string (see `Ev.progressText`) or signal payload. -/
inductive Ev where
  /-- `self.error.emit` with the configuration failure text (run, line 79). -/
  | errorSig (e : String)
  /-- `self.progress.emit("Đã dừng tác vụ hàng loạt.")` (run, line 85). -/
  | stopped
  /-- progress message opening file `idx` (0-based) of `total` (run, line 88). -/
  | fileStart (idx total : Nat) (fileName : String)
  /-- progress message after `convert_from_path` succeeds (run, line 93). -/
  | convertOk (numPages : Nat)
  /-- progress message before an OCR attempt (process_page, line 115). -/
  | pageAttempt (pageNum totalPages attempt : Nat)
  /-- the external call `model.generate_content` (process_page, line 118). -/
  | ocrCall (pageNum attempt : Nat)
  /-- progress warning after a non-final failed attempt (process_page, line 124). -/
  | pageWarn (pageNum : Nat) (e : String)
  /-- `time.sleep(self.RETRY_DELAY)` (process_page, line 125). -/
  | sleep (secs : Nat)
  /-- progress message after the final failed attempt (process_page, line 122). -/
  | pageSkip (pageNum : Nat)
  /-- `doc.save(docx_path)` writing the document (create_word_document, line 131). -/
  | docSaved (path : String) (heading : String) (paragraphs : List String)
  /-- progress message after a file completes (run, line 103). -/
  | fileDone (outputFilename : String)
  /-- progress message in the per-file `except` branch (run, line 107). -/
  | fileError (fileName : String) (e : String)
  /-- `self.file_finished.emit(path, success, output_path)` (run, lines 104/108). -/
  | fileFinished (path : String) (success : Bool) (outPath : String)
  /-- `self.finished.emit("Hoàn thành tất cả các file trong danh sách!")` (run, line 110). -/
  | finished
deriving DecidableEq, Repr

/-- `self.MAX_RETRIES` (line 71). -/
def MAX_RETRIES : Nat := 3

/-- `self.RETRY_DELAY` (line 72), in seconds. -/
def RETRY_DELAY : Nat := 2

/-- The diagnostic string `process_page` returns for a page whose attempts
were all exhausted (line 123):
`f"\n\n--- Lỗi: Không thể xử lý trang {page_num}, chi tiết: {e} ---\n\n"`. -/
def errPageString (pageNum : Nat) (e : String) : String :=
  "\n\n--- Lỗi: Không thể xử lý trang " ++ toString pageNum ++ ", chi tiết: " ++ e ++ " ---\n\n"

/-- POSIX `os.path.basename`: the component after the last separator
(`p[p.rfind('/') + 1:]`). -/
def basename (p : String) : String :=
  String.mk ((p.data.reverse.takeWhile (fun c => c ≠ '/')).reverse)

/-- `os.path.splitext` on a separator-free name: split at the last dot,
except that a name whose characters before that dot are all dots has no
extension (so `.bashrc` splits as `(".bashrc", "")`). -/
def splitext (s : String) : String × String :=
  match s.data.reverse.findIdx? (fun c => c = '.') with
  | none => (s, "")
  | some i =>
    let d := s.data.length - 1 - i
    if (s.data.take d).all (fun c => c = '.') then (s, "")
    else (String.mk (s.data.take d), String.mk (s.data.drop d))

/-- POSIX `os.path.join` restricted to two components: an absolute second
component replaces the first, otherwise a separator is inserted unless the
first is empty or already ends in one. -/
def joinPath (a b : String) : String :=
  if b.data.head? = some '/' then b
  else if a = "" ∨ a.data.getLast? = some '/' then a ++ b
  else a ++ "/" ++ b

/-- The output document path computed in `run` (lines 99-101):
`os.path.join(output_dir, splitext(basename(pdf_path))[0] + "_ocr.docx")`. -/
def outputPath (outputDir pdfPath : String) : String :=
  joinPath outputDir ((splitext (basename pdfPath)).1 ++ "_ocr.docx")

/-- Python `markdown_text.split('\n')` (line 130): split the characters at
every newline, keeping empty pieces. -/
def pySplitLines (s : String) : List String :=
  (s.data.splitOn '\n').map String.mk

/-- Model of the document built by `create_word_document` (lines 128-131):
a heading plus one paragraph per line of the markdown text. -/
structure Docx where
  heading : String
  paragraphs : List String
deriving DecidableEq, Repr

/-- The body text carried by a document: its paragraphs rejoined with
newlines (the inverse of the per-line `add_paragraph` of line 130). -/
def Docx.bodyText (d : Docx) : String :=
  String.mk (List.intercalate ['\n'] (d.paragraphs.map String.data))

/-- `create_word_document` (lines 128-131): add the fixed heading, then one
paragraph per `'\n'`-separated line of `markdown_text`. -/
def create_word_document (markdownText : String) : Docx :=
  { heading := "Kết quả OCR từ PDF", paragraphs := pySplitLines markdownText }

/-- One iteration body of the `for attempt in range(self.MAX_RETRIES)` loop of
`process_page` (lines 112-126), by recursion on the remaining attempts
(`fuel`, starting at `MAX_RETRIES`, so `fuel + attempt = MAX_RETRIES`).
`ocr a` is the outcome of `model.generate_content` on attempt `a`; `t`
counts reads of `self.is_running`.  Returns the string `process_page`
returns, the next read index, and the emitted events. -/
def processPageAux (flag : Nat → Bool) (ocr : Nat → Except String String)
    (pageNum totalPages : Nat) : Nat → Nat → Nat → String × Nat × List Ev
  | 0, _, t => ("", t, [])
  | fuel + 1, attempt, t =>
    if flag t then
      match ocr attempt with
      | .ok text =>
        (text, t + 1, [Ev.pageAttempt pageNum totalPages attempt, Ev.ocrCall pageNum attempt])
      | .error e =>
        if MAX_RETRIES - 1 ≤ attempt then
          (errPageString pageNum e, t + 1,
            [Ev.pageAttempt pageNum totalPages attempt, Ev.ocrCall pageNum attempt,
             Ev.pageSkip pageNum])
        else
          let rest := processPageAux flag ocr pageNum totalPages fuel (attempt + 1) (t + 1)
          (rest.1, rest.2.1,
            Ev.pageAttempt pageNum totalPages attempt :: Ev.ocrCall pageNum attempt ::
              Ev.pageWarn pageNum e :: Ev.sleep RETRY_DELAY :: rest.2.2)
    else ("", t + 1, [])

/-- `OcrWorker.process_page` (lines 112-126). -/
def process_page (flag : Nat → Bool) (ocr : Nat → Except String String)
    (pageNum totalPages : Nat) (t : Nat) : String × Nat × List Ev :=
  processPageAux flag ocr pageNum totalPages MAX_RETRIES 0 t

/-- The list comprehension of `run` (line 94):
`[self.process_page(model, img, i + 1, num_pages) for i, img in enumerate(images) if self.is_running]`.
Iterates all `remaining` pages starting at 0-based index `i`; the filter
reads the flag once per page before deciding whether to call
`process_page`.  Returns the collected texts, the next read index and the
events. -/
def processPages (flag : Nat → Bool) (ocr : Nat → Nat → Except String String)
    (totalPages : Nat) : Nat → Nat → Nat → List String × Nat × List Ev
  | 0, _, t => ([], t, [])
  | remaining + 1, i, t =>
    if flag t then
      let pr := process_page flag (ocr i) (i + 1) totalPages (t + 1)
      let rest := processPages flag ocr totalPages remaining (i + 1) pr.2.1
      (pr.1 :: rest.1, rest.2.1, pr.2.2 ++ rest.2.2)
    else
      processPages flag ocr totalPages remaining (i + 1) (t + 1)

/-- Per-file data for one entry of `self.pdf_paths`, with the oracles for the
external calls made while processing it: `convert` is the outcome of
`convert_from_path` (number of page images, or an exception), `ocr p a` the
outcome of the OCR call for 0-based page `p` on attempt `a`, and `save` the
outcome of `doc.save` inside `create_word_document`. -/
structure FileSpec where
  path : String
  convert : Except String Nat
  ocr : Nat → Nat → Except String String
  save : Except String Unit

/-- The `for file_index, pdf_path in enumerate(self.pdf_paths)` loop of `run`
(lines 83-110), followed by the `finished` emission (line 110).  `idx` is the
current `file_index`, `t` the next read index of `self.is_running`. -/
def runFiles (flag : Nat → Bool) (outputDir : String) (total : Nat) :
    List FileSpec → Nat → Nat → List Ev
  | [], _, _ => [Ev.finished]
  | f :: rest, idx, t =>
    if flag t then
      match f.convert with
      | .error e =>
        Ev.fileStart idx total (basename f.path) :: Ev.fileError (basename f.path) e ::
          Ev.fileFinished f.path false "" ::
            runFiles flag outputDir total rest (idx + 1) (t + 1)
      | .ok numPages =>
        let pres := processPages flag f.ocr numPages numPages 0 (t + 1)
        Ev.fileStart idx total (basename f.path) :: Ev.convertOk numPages ::
          (pres.2.2 ++
            (if flag pres.2.1 then
              match f.save with
              | .error e =>
                [Ev.fileError (basename f.path) e, Ev.fileFinished f.path false ""]
              | .ok _ =>
                let doc := create_word_document (String.intercalate "\n\n---\n\n" pres.1)
                [Ev.docSaved (outputPath outputDir f.path) doc.heading doc.paragraphs,
                 Ev.fileDone ((splitext (basename f.path)).1 ++ "_ocr.docx"),
                 Ev.fileFinished f.path true (outputPath outputDir f.path)]
            else []) ++
            runFiles flag outputDir total rest (idx + 1) (pres.2.1 + 1))
    else [Ev.stopped]

/-- `OcrWorker.run` (lines 74-110).  `config` is the joint outcome of
`genai.configure` and `genai.GenerativeModel` (lines 76-77). -/
def run (flag : Nat → Bool) (config : Except String Unit) (outputDir : String)
    (files : List FileSpec) : List Ev :=
  match config with
  | .error e => [Ev.errorSig e]
  | .ok _ => runFiles flag outputDir files.length files 0 0

/-- The flag behaviour produced by `OcrWorker.stop` (line 133): the flag is
initialised to `True` and only ever set to `False`, so once a read returns
`false` every later read does too. -/
def FlagStopsForever (flag : Nat → Bool) : Prop :=
  ∀ s u, s ≤ u → flag s = false → flag u = false

/-- The flag of a batch during which `stop` is never called. -/
def alwaysRun : Nat → Bool := fun _ => true

/-- Rendering of each progress-channel event back to the exact Python
f-string of `src/main.py` (`none` for events that are not `progress.emit`
calls), recording which message each constructor abstracts. -/
def Ev.progressText : Ev → Option String
  | .errorSig _ => none
  | .stopped => some "Đã dừng tác vụ hàng loạt."
  | .fileStart idx total fileName =>
    some ("\n--- Bắt đầu xử lý file " ++ toString (idx + 1) ++ "/" ++ toString total ++
      ": " ++ fileName ++ " ---")
  | .convertOk n => some ("Chuyển đổi thành công " ++ toString n ++ " trang.")
  | .pageAttempt p tp a =>
    some ("Đang xử lý trang " ++ toString p ++ "/" ++ toString tp ++
      " (lần thử " ++ toString (a + 1) ++ ")...")
  | .ocrCall _ _ => none
  | .pageWarn p e =>
    some ("Cảnh báo (trang " ++ toString p ++ "): Lỗi \x27" ++ e ++
      "\x27. Thử lại sau " ++ toString RETRY_DELAY ++ " giây.")
  | .sleep _ => none
  | .pageSkip p =>
    some ("Lỗi: Bỏ qua trang " ++ toString p ++ " sau " ++ toString MAX_RETRIES ++
      " lần thử thất bại.")
  | .docSaved _ _ _ => none
  | .fileDone name => some ("✅ Hoàn thành file: " ++ name)
  | .fileError name e =>
    some ("❌ Lỗi nghiêm trọng khi xử lý file " ++ name ++ ": " ++ e)
  | .fileFinished _ _ _ => none
  | .finished => none

/-- Event classifiers used to state trace properties. -/
def isFileFinishedEv : Ev → Bool
  | .fileFinished _ _ _ => true
  | _ => false

/-- Batch-completion events (the `finished` signal). -/
def isFinishedEv : Ev → Bool
  | .finished => true
  | _ => false

/-- Successful per-file completion notifications. -/
def isSuccessNotif : Ev → Bool
  | .fileFinished _ true _ => true
  | _ => false

/-- Failed per-file completion notifications. -/
def isFailureNotif : Ev → Bool
  | .fileFinished _ false _ => true
  | _ => false

/-- External OCR calls. -/
def isOcrCallEv : Ev → Bool
  | .ocrCall _ _ => true
  | _ => false

/-- Events emitted inside page processing (the inner loop). -/
def isPageEv : Ev → Bool
  | .pageAttempt _ _ _ => true
  | .ocrCall _ _ => true
  | .pageWarn _ _ => true
  | .sleep _ => true
  | .pageSkip _ => true
  | _ => false

/-- The skip notice of a fully failed page. -/
def isPageSkipEv : Ev → Bool
  | .pageSkip _ => true
  | _ => false

/-- The file name announced by a `fileStart` event, if any. -/
def startedName? : Ev → Option String
  | .fileStart _ _ n => some n
  | _ => none

/-- The payload of a `docSaved` event, if any. -/
def docSaved? : Ev → Option (String × Docx)
  | .docSaved p h paras => some (p, ⟨h, paras⟩)
  | _ => none

/-- Whether both external calls of a file's `try` block succeed, i.e. the file
is successfully processed (no per-file `except` branch taken). -/
def fileOk (f : FileSpec) : Bool :=
  match f.convert, f.save with
  | .ok _, .ok _ => true
  | _, _ => false

/-- The `file_finished` event `run` emits for a file when the flag is never
cleared: success with the output path if both external calls succeed, failure
with an empty path otherwise. -/
def fileOutcomeEv (outputDir : String) (f : FileSpec) : Ev :=
  if fileOk f then Ev.fileFinished f.path true (outputPath outputDir f.path)
  else Ev.fileFinished f.path false ""

/-- The per-page texts collected for a file with `numPages` pages when the
flag is never cleared (page `i` is processed as page number `i + 1`). -/
def pagesTexts (ocr : Nat → Nat → Except String String) (numPages : Nat) : List String :=
  (processPages alwaysRun ocr numPages numPages 0 0).1

/-- The markdown content handed to `create_word_document` for a successfully
converted file, when the flag is never cleared. -/
def docContent (f : FileSpec) : String :=
  match f.convert with
  | .ok n => String.intercalate "\n\n---\n\n" (pagesTexts f.ocr n)
  | .error _ => ""

/-- The final document contents at `path` after a run: the last `docSaved`
event targeting `path` wins (a later write to the same path overwrites an
earlier one on disk). -/
def lastDocAt (tr : List Ev) (path : String) : Option Docx :=
  (((tr.filterMap docSaved?).filter (fun pd => pd.1 = path)).getLast?).map (fun pd => pd.2)

/-- UTF-8 encoding of one Unicode scalar value (model of Python
`str.encode('utf-8')`, per character). -/
def utf8EncodeChar (c : Nat) : List Nat :=
  if c < 0x80 then [c]
  else if c < 0x800 then [0xC0 + c / 64, 0x80 + c % 64]
  else if c < 0x10000 then [0xE0 + c / 4096, 0x80 + c / 64 % 64, 0x80 + c % 64]
  else [0xF0 + c / 262144, 0x80 + c / 4096 % 64, 0x80 + c / 64 % 64, 0x80 + c % 64]

/-- UTF-8 encoding of a sequence of code points. -/
def utf8Encode (cs : List Nat) : List Nat :=
  (cs.map utf8EncodeChar).flatten

/-- Decode one UTF-8 sequence from the front of a byte list (model of Python
`bytes.decode('utf-8')`): rejects stray or missing continuation bytes,
overlong forms, surrogates and out-of-range values, as CPython does. -/
def utf8DecodeChar : List Nat → Option (Nat × List Nat)
  | [] => none
  | b0 :: rest =>
    if b0 < 0x80 then some (b0, rest)
    else if b0 < 0xC0 then none
    else if b0 < 0xE0 then
      match rest with
      | b1 :: r =>
        if 0x80 ≤ b1 ∧ b1 < 0xC0 then
          let c := (b0 - 0xC0) * 64 + (b1 - 0x80)
          if 0x80 ≤ c then some (c, r) else none
        else none
      | _ => none
    else if b0 < 0xF0 then
      match rest with
      | b1 :: b2 :: r =>
        if (0x80 ≤ b1 ∧ b1 < 0xC0) ∧ (0x80 ≤ b2 ∧ b2 < 0xC0) then
          let c := (b0 - 0xE0) * 4096 + (b1 - 0x80) * 64 + (b2 - 0x80)
          if 0x800 ≤ c ∧ (c < 0xD800 ∨ 0xE000 ≤ c) then some (c, r) else none
        else none
      | _ => none
    else if b0 < 0xF8 then
      match rest with
      | b1 :: b2 :: b3 :: r =>
        if (0x80 ≤ b1 ∧ b1 < 0xC0) ∧ (0x80 ≤ b2 ∧ b2 < 0xC0) ∧ (0x80 ≤ b3 ∧ b3 < 0xC0) then
          let c := (b0 - 0xF0) * 262144 + (b1 - 0x80) * 4096 + (b2 - 0x80) * 64 + (b3 - 0x80)
          if 0x10000 ≤ c ∧ c < 0x110000 then some (c, r) else none
        else none
      | _ => none
    else none

/-- Fuelled UTF-8 decoding loop; the fuel bounds the number of decoded
characters (one byte at least is consumed per character). -/
def utf8DecodeAux : Nat → List Nat → Option (List Nat)
  | _, [] => some []
  | 0, _ :: _ => none
  | fuel + 1, bs =>
    match utf8DecodeChar bs with
    | some (c, r) => (utf8DecodeAux fuel r).map (fun cs => c :: cs)
    | none => none

/-- UTF-8 decoding of a byte list to code points, or `none` on invalid
input (Python raises `UnicodeDecodeError`). -/
def utf8Decode (bs : List Nat) : Option (List Nat) :=
  utf8DecodeAux bs.length bs

/-- The base64 alphabet used by `base64.b64encode`. -/
def b64alphabet : List Char :=
  "ABCDEFGHIJKLMNOPQRSTUVWXYZabcdefghijklmnopqrstuvwxyz0123456789+/".data

/-- Character for a six-bit group. -/
def b64char (i : Nat) : Char :=
  b64alphabet.getD i '='

/-- Six-bit value of an alphabet character, `none` for a non-alphabet
character. -/
def b64index (c : Char) : Option Nat :=
  b64alphabet.findIdx? (fun x => x = c)

/-- Model of `base64.b64encode`: three bytes become four alphabet characters;
a final group of one or two bytes is padded with `'='`. -/
def b64encodeBytes : List Nat → List Char
  | [] => []
  | [a] => [b64char (a / 4), b64char (a % 4 * 16), '=', '=']
  | [a, b] => [b64char (a / 4), b64char (a % 4 * 16 + b / 16), b64char (b % 16 * 4), '=']
  | a :: b :: c :: rest =>
    b64char (a / 4) :: b64char (a % 4 * 16 + b / 16) :: b64char (b % 16 * 4 + c / 64) ::
      b64char (c % 64) :: b64encodeBytes rest

/-- Model of `base64.b64decode` on the strings produced by the application:
four characters at a time, with `'='` padding allowed only at the end;
`none` models `binascii.Error`. -/
def b64decodeBytes : List Char → Option (List Nat)
  | [] => some []
  | c0 :: c1 :: c2 :: c3 :: rest =>
    match b64index c0, b64index c1 with
    | some x0, some x1 =>
      if c2 = '=' then
        if c3 = '=' ∧ rest = [] then some [x0 * 4 + x1 / 16] else none
      else
        match b64index c2 with
        | some x2 =>
          if c3 = '=' then
            if rest = [] then some [x0 * 4 + x1 / 16, x1 % 16 * 16 + x2 / 4] else none
          else
            match b64index c3 with
            | some x3 =>
              (b64decodeBytes rest).map
                (fun tail =>
                  (x0 * 4 + x1 / 16) :: (x1 % 16 * 16 + x2 / 4) :: (x2 % 4 * 64 + x3) :: tail)
            | none => none
        | none => none
    | _, _ => none
  | _ => none

/-- The persisted configuration record (the JSON object written by
`App.save_config`, line 221): `api_key` holds the base64-encoded credential. -/
structure StoredConfig where
  api_key : String
  output_dir : String
  dark_mode : Bool
deriving DecidableEq, Repr

/-- The three pieces of user-visible configuration state (the API-key field,
the output-directory field and the dark-mode flag of `App`). -/
structure UiState where
  api_key : String
  output_dir : String
  dark_mode : Bool
deriving DecidableEq, Repr

/-- The `App` state right after construction, before `load_config` runs:
both line edits are empty and `is_dark_mode = False` (line 140). -/
def initialUi : UiState :=
  { api_key := "", output_dir := "", dark_mode := false }

/-- `App.save_config` (lines 220-222): store the key base64-encoded over its
UTF-8 bytes, the output directory and the dark-mode flag verbatim. -/
def save_config (st : UiState) : StoredConfig :=
  { api_key := String.mk (b64encodeBytes (utf8Encode (st.api_key.data.map Char.toNat)))
    output_dir := st.output_dir
    dark_mode := st.dark_mode }

/-- `App.load_config` (lines 208-218) applied to a stored record, starting
from UI state `st`.  The key field is populated only when the stored string
is non-empty (`if api_key_b64:`); a decoding exception aborts the `try`
block before the directory and flag are assigned, leaving `st` unchanged.
Returns the resulting state and whether the `except` branch ran. -/
def load_config (sc : StoredConfig) (st : UiState) : UiState × Bool :=
  if sc.api_key = "" then
    ({ api_key := st.api_key, output_dir := sc.output_dir, dark_mode := sc.dark_mode }, false)
  else
    match (b64decodeBytes sc.api_key.data).bind utf8Decode with
    | some codes =>
      ({ api_key := String.mk (codes.map Char.ofNat)
         output_dir := sc.output_dir
         dark_mode := sc.dark_mode }, false)
    | none => (st, true)

/-- A flag that is already cleared when the batch starts. -/
def neverRun : Nat → Bool := fun _ => false

/-- A sample file whose external calls all succeed. -/
def sampleFile : FileSpec :=
  { path := "/a/x.pdf", convert := Except.ok 1, ocr := fun _ _ => Except.ok "PG",
    save := Except.ok () }

/-- A sample file whose PDF conversion raises. -/
def badFile : FileSpec :=
  { path := "/b/y.pdf", convert := Except.error "bad pdf", ocr := fun _ _ => Except.ok "PG",
    save := Except.ok () }

/-- A sample two-page file whose pages OCR to distinct texts. -/
def twoPageFile : FileSpec :=
  { path := "/a/doc.pdf", convert := Except.ok 2,
    ocr := fun p _ => Except.ok ("PAGE" ++ toString (p + 1)), save := Except.ok () }

/-- A one-page file at `/a/doc.pdf` whose page reads `T1`. -/
def fileDocA : FileSpec :=
  { path := "/a/doc.pdf", convert := Except.ok 1, ocr := fun _ _ => Except.ok "T1",
    save := Except.ok () }

/-- A one-page file at `/b/doc.pdf` — a different input with the same base
name — whose page reads `T2`. -/
def fileDocB : FileSpec :=
  { path := "/b/doc.pdf", convert := Except.ok 1, ocr := fun _ _ => Except.ok "T2",
    save := Except.ok () }

/-- The OCR call is made at most `fuel` times in one `processPageAux` run. -/
theorem processPageAux_countP_le (flag : Nat → Bool) (ocr : Nat → Except String String)
    (p tp : Nat) : ∀ fuel attempt t,
    ((processPageAux flag ocr p tp fuel attempt t).2.2).countP isOcrCallEv ≤ fuel := by
  intro fuel
  induction fuel with
  | zero => intro a t; simp [processPageAux]
  | succ n ih =>
    intro a t
    simp only [processPageAux]
    by_cases hf : flag t
    · simp only [hf, if_true]
      cases hocr : ocr a with
      | ok text => simp [isOcrCallEv]
      | error e =>
        by_cases hA : MAX_RETRIES - 1 ≤ a
        · simp [hA, isOcrCallEv]
        · simp only [hA, if_false]
          have h := ih (a + 1) (t + 1)
          simp [isOcrCallEv]
          omega
    · simp [hf]

/-- With the flag never cleared, the comprehension of `run` line 94 collects
one text per page: no page is dropped, whatever the OCR outcomes are. -/
theorem processPages_length (flag : Nat → Bool) (hflag : ∀ s, flag s = true)
    (ocr : Nat → Nat → Except String String) (tp : Nat) :
    ∀ n i t, ((processPages flag ocr tp n i t).1).length = n := by
  intro n
  induction n with
  | zero => intro i t; simp [processPages]
  | succ m ih =>
    intro i t
    simp only [processPages, hflag, if_true, List.length_cons]
    rw [ih]

/-- C1: for every page the OCR call is attempted at most `MAX_RETRIES = 3`
times; when every attempt raises, the trace is exactly three attempts with a
`RETRY_DELAY = 2` second sleep between consecutive failed attempts, and
`process_page` returns the diagnostic string naming the page number in place
of OCR text; and the enclosing comprehension still collects one entry per
page, so processing proceeds to the next page.  (error_handling) -/
theorem c1_per_page_retry_policy :
    (∀ flag ocr p tp t,
      ((process_page flag ocr p tp t).2.2).countP isOcrCallEv ≤ MAX_RETRIES) ∧
    (∀ (flag : Nat → Bool) ocr p tp t e0 e1 e2, (∀ s, flag s = true) →
      ocr 0 = Except.error e0 → ocr 1 = Except.error e1 → ocr 2 = Except.error e2 →
      process_page flag ocr p tp t =
        (errPageString p e2, t + 3,
         [Ev.pageAttempt p tp 0, Ev.ocrCall p 0, Ev.pageWarn p e0, Ev.sleep RETRY_DELAY,
          Ev.pageAttempt p tp 1, Ev.ocrCall p 1, Ev.pageWarn p e1, Ev.sleep RETRY_DELAY,
          Ev.pageAttempt p tp 2, Ev.ocrCall p 2, Ev.pageSkip p])) ∧
    (∀ (flag : Nat → Bool) ocr tp n i t, (∀ s, flag s = true) →
      ((processPages flag ocr tp n i t).1).length = n) := by
  refine ⟨fun flag ocr p tp t => processPageAux_countP_le flag ocr p tp MAX_RETRIES 0 t,
    ?_, fun flag ocr tp n i t h => processPages_length flag h ocr tp n i t⟩
  intro flag ocr p tp t e0 e1 e2 hflag h0 h1 h2
  simp only [process_page, MAX_RETRIES, processPageAux, hflag, if_true, h0, h1, h2]
  norm_num

/-- Witness for C1 at concrete inputs. -/
theorem c1_per_page_retry_policy_witness :
    ((process_page alwaysRun (fun a => Except.error (toString a)) 5 9 0).2.2).countP
        isOcrCallEv ≤ MAX_RETRIES ∧
    process_page alwaysRun (fun a => Except.error (toString a)) 5 9 0 =
      (errPageString 5 "2", 0 + 3,
       [Ev.pageAttempt 5 9 0, Ev.ocrCall 5 0, Ev.pageWarn 5 "0", Ev.sleep RETRY_DELAY,
        Ev.pageAttempt 5 9 1, Ev.ocrCall 5 1, Ev.pageWarn 5 "1", Ev.sleep RETRY_DELAY,
        Ev.pageAttempt 5 9 2, Ev.ocrCall 5 2, Ev.pageSkip 5]) ∧
    ((processPages alwaysRun (fun _ _ => Except.ok "T") 2 2 0 0).1).length = 2 :=
  ⟨c1_per_page_retry_policy.1 alwaysRun _ 5 9 0,
   c1_per_page_retry_policy.2.1 alwaysRun _ 5 9 0 "0" "1" "2"
     (fun _ => rfl) rfl rfl rfl,
   c1_per_page_retry_policy.2.2 alwaysRun _ 2 2 0 0 (fun _ => rfl)⟩

/-- A cleared flag makes `process_page` return the empty string at once,
consuming one read and emitting nothing (line 114). -/
theorem process_page_stopped (flag : Nat → Bool) (ocr : Nat → Except String String)
    (p tp t : Nat) (hf : flag t = false) :
    process_page flag ocr p tp t = ("", t + 1, []) := by
  simp [process_page, MAX_RETRIES, processPageAux, hf]

/-- Once the flag is cleared, the comprehension of line 94 calls
`process_page` for none of the remaining pages: it collects no text and
emits nothing (it still reads the flag once per remaining page). -/
theorem processPages_stopped (flag : Nat → Bool) (hmono : FlagStopsForever flag)
    (ocr : Nat → Nat → Except String String) (tp : Nat) :
    ∀ n i t, flag t = false → processPages flag ocr tp n i t = ([], t + n, []) := by
  intro n
  induction n with
  | zero => intro i t _; simp [processPages]
  | succ m ih =>
    intro i t hf
    have hf1 : flag (t + 1) = false := hmono t (t + 1) (Nat.le_succ t) hf
    simp only [processPages, hf, if_false]
    rw [ih (i + 1) (t + 1) hf1]
    have h : t + 1 + m = t + (m + 1) := by omega
    rw [h]
    simp

/-- C2: the cancellation flag is read at the top of each outer (per-file)
iteration and of each inner (per-page) iteration; a cleared flag at the
outer check makes the worker return at once, emitting only the stop notice —
no file is started and neither a `file_finished` nor the batch `finished`
signal is emitted for the remaining items; a cleared flag at the inner
checks skips every remaining page call, and a cleared flag inside
`process_page` makes it return immediately.  (temporal) -/
theorem c2_cooperative_cancellation :
    (∀ (flag : Nat → Bool) outDir total f rest idx t, flag t = false →
      runFiles flag outDir total (f :: rest) idx t = [Ev.stopped]) ∧
    (∀ (flag : Nat → Bool), FlagStopsForever flag →
      ∀ ocr tp n i t, flag t = false →
        processPages flag ocr tp n i t = ([], t + n, [])) ∧
    (∀ (flag : Nat → Bool) ocr p tp t, flag t = false →
      process_page flag ocr p tp t = ("", t + 1, [])) := by
  refine ⟨?_, fun flag hm ocr tp n i t hf => processPages_stopped flag hm ocr tp n i t hf,
    fun flag ocr p tp t hf => process_page_stopped flag ocr p tp t hf⟩
  intro flag outDir total f rest idx t hf
  simp [runFiles, hf]

/-- Witness for C2 at concrete inputs. -/
theorem c2_cooperative_cancellation_witness :
    runFiles neverRun "/out" 1 [sampleFile] 0 0 = [Ev.stopped] ∧
    processPages neverRun sampleFile.ocr 3 3 0 0 = ([], 0 + 3, []) ∧
    process_page neverRun (sampleFile.ocr 0) 1 3 0 = ("", 0 + 1, []) :=
  ⟨c2_cooperative_cancellation.1 neverRun "/out" 1 sampleFile [] 0 0 rfl,
   c2_cooperative_cancellation.2.1 neverRun (fun _ _ _ _ => rfl) sampleFile.ocr 3 3 0 0 rfl,
   c2_cooperative_cancellation.2.2 neverRun (sampleFile.ocr 0) 1 3 0 rfl⟩

/-- Every event emitted by `processPageAux` is a page-level event. -/
theorem processPageAux_events_page (flag : Nat → Bool) (ocr : Nat → Except String String)
    (p tp : Nat) : ∀ fuel attempt t,
    ∀ e ∈ (processPageAux flag ocr p tp fuel attempt t).2.2, isPageEv e = true := by
  intro fuel
  induction fuel with
  | zero => intro a t e he; simp [processPageAux] at he
  | succ n ih =>
    intro a t e he
    simp only [processPageAux] at he
    by_cases hf : flag t
    · simp only [hf, if_true] at he
      cases hocr : ocr a with
      | ok text =>
        rw [hocr] at he
        simp at he
        rcases he with h | h <;> simp [h, isPageEv]
      | error err =>
        rw [hocr] at he
        by_cases hA : MAX_RETRIES - 1 ≤ a
        · simp only [hA, if_true] at he
          simp at he
          rcases he with h | h | h <;> simp [h, isPageEv]
        · simp only [hA, if_false] at he
          simp at he
          rcases he with h | h | h | h | h
          · simp [h, isPageEv]
          · simp [h, isPageEv]
          · simp [h, isPageEv]
          · simp [h, isPageEv]
          · exact ih (a + 1) (t + 1) e h
    · simp [hf] at he

/-- Every event emitted by the page comprehension is a page-level event. -/
theorem processPages_events_page (flag : Nat → Bool) (ocr : Nat → Nat → Except String String)
    (tp : Nat) : ∀ n i t,
    ∀ e ∈ (processPages flag ocr tp n i t).2.2, isPageEv e = true := by
  intro n
  induction n with
  | zero => intro i t e he; simp [processPages] at he
  | succ m ih =>
    intro i t e he
    simp only [processPages] at he
    by_cases hf : flag t
    · simp only [hf, if_true] at he
      rw [List.mem_append] at he
      rcases he with h | h
      · exact processPageAux_events_page flag (ocr i) (i + 1) tp MAX_RETRIES 0 (t + 1) e h
      · exact ih (i + 1) _ e h
    · simp only [hf, if_false] at he
      exact ih (i + 1) (t + 1) e he

/-- Page-level events are invisible to a classifier that page events never
satisfy, so they filter away. -/
theorem filter_pageEv_eq_nil (p : Ev → Bool) (hp : ∀ e, isPageEv e = true → p e = false)
    (l : List Ev) (hl : ∀ e ∈ l, isPageEv e = true) : l.filter p = [] := by
  rw [List.filter_eq_nil_iff]
  intro a ha
  simp [hp a (hl a ha)]

/-- Page-level events are not `file_finished` notifications. -/
theorem pageEv_not_fileFinished (e : Ev) (h : isPageEv e = true) :
    isFileFinishedEv e = false := by
  cases e <;> simp_all [isPageEv, isFileFinishedEv]

/-- Page-level events are not the batch `finished` signal. -/
theorem pageEv_not_finished (e : Ev) (h : isPageEv e = true) :
    isFinishedEv e = false := by
  cases e <;> simp_all [isPageEv, isFinishedEv]

/-- With the flag never cleared, the outer loop emits exactly one
`file_finished` notification per file, in submission order: success with the
output path when both external calls succeed, failure with an empty path
otherwise. -/
theorem runFiles_filter_fileFinished (flag : Nat → Bool) (hflag : ∀ s, flag s = true)
    (outDir : String) (total : Nat) :
    ∀ fs idx t, (runFiles flag outDir total fs idx t).filter isFileFinishedEv
      = fs.map (fileOutcomeEv outDir) := by
  intro fs
  induction fs with
  | nil => intro idx t; simp [runFiles, isFileFinishedEv]
  | cons f rest ih =>
    intro idx t
    simp only [runFiles, hflag, if_true]
    cases hc : f.convert with
    | error e =>
      cases hs : f.save with
      | error e2 =>
        simp [List.filter_cons, isFileFinishedEv, ih, fileOutcomeEv, fileOk, hc, hs]
      | ok u =>
        simp [List.filter_cons, isFileFinishedEv, ih, fileOutcomeEv, fileOk, hc, hs]
    | ok n =>
      have hpages := filter_pageEv_eq_nil isFileFinishedEv pageEv_not_fileFinished
        (processPages flag f.ocr n n 0 (t + 1)).2.2
        (processPages_events_page flag f.ocr n n 0 (t + 1))
      cases hs : f.save with
      | error e2 =>
        simp [List.filter_cons, List.filter_append, hpages, hflag, isFileFinishedEv,
          ih, fileOutcomeEv, fileOk, hc, hs]
      | ok u =>
        simp [List.filter_cons, List.filter_append, hpages, hflag, isFileFinishedEv,
          ih, fileOutcomeEv, fileOk, hc, hs]

/-- With the flag never cleared, the batch-completion signal is emitted
exactly once, whatever the per-file outcomes. -/
theorem runFiles_countP_finished (flag : Nat → Bool) (hflag : ∀ s, flag s = true)
    (outDir : String) (total : Nat) :
    ∀ fs idx t, (runFiles flag outDir total fs idx t).countP isFinishedEv = 1 := by
  intro fs
  induction fs with
  | nil => intro idx t; simp [runFiles, List.countP_cons, isFinishedEv]
  | cons f rest ih =>
    intro idx t
    simp only [runFiles, hflag, if_true]
    cases hc : f.convert with
    | error e =>
      simp [List.countP_cons, isFinishedEv, ih]
    | ok n =>
      have hpages : ((processPages flag f.ocr n n 0 (t + 1)).2.2).countP isFinishedEv = 0 := by
        rw [List.countP_eq_length_filter]
        rw [filter_pageEv_eq_nil isFinishedEv pageEv_not_finished _
          (processPages_events_page flag f.ocr n n 0 (t + 1))]
        rfl
      cases hs : f.save with
      | error e2 =>
        simp [List.countP_cons, List.countP_append, hpages, hflag, isFinishedEv, ih, hs]
      | ok u =>
        simp [List.countP_cons, List.countP_append, hpages, hflag, isFinishedEv, ih, hs]

/-- Success notifications are `file_finished` notifications. -/
theorem successNotif_and_fileFinished (e : Ev) :
    (isSuccessNotif e && isFileFinishedEv e) = isSuccessNotif e := by
  cases e <;> simp [isSuccessNotif, isFileFinishedEv]

/-- Failure notifications are `file_finished` notifications. -/
theorem failureNotif_and_fileFinished (e : Ev) :
    (isFailureNotif e && isFileFinishedEv e) = isFailureNotif e := by
  cases e <;> simp [isFailureNotif, isFileFinishedEv]

/-- The notification emitted for a file is a success notification exactly
when the file processed without an exception. -/
theorem successNotif_outcome (outDir : String) (f : FileSpec) :
    isSuccessNotif (fileOutcomeEv outDir f) = fileOk f := by
  by_cases h : fileOk f <;> simp [fileOutcomeEv, h, isSuccessNotif]

/-- The notification emitted for a file is a failure notification exactly
when the file raised. -/
theorem failureNotif_outcome (outDir : String) (f : FileSpec) :
    isFailureNotif (fileOutcomeEv outDir f) = !fileOk f := by
  by_cases h : fileOk f <;> simp [fileOutcomeEv, h, isFailureNotif]

/-- C3: with the flag never cleared, any exception inside one file's `try`
block is confined to that file: the trace carries exactly one
`file_finished` notification per file in submission order — `success=False`
with an empty output path for the files that raised, `success=True` with the
output path for the rest — so a batch in which exactly one file fails yields
exactly `N-1` success notifications and one failure notification; and the
batch-completion signal still fires exactly once.  (error_handling) -/
theorem c3_per_file_fault_isolation :
    ∀ (flag : Nat → Bool) (outDir : String) (fs : List FileSpec), (∀ s, flag s = true) →
      (run flag (Except.ok ()) outDir fs).filter isFileFinishedEv
          = fs.map (fileOutcomeEv outDir) ∧
      (run flag (Except.ok ()) outDir fs).countP isSuccessNotif
          = (fs.filter fileOk).length ∧
      (run flag (Except.ok ()) outDir fs).countP isFailureNotif
          = (fs.filter (fun f => !fileOk f)).length ∧
      (run flag (Except.ok ()) outDir fs).countP isFinishedEv = 1 := by
  intro flag outDir fs hflag
  have hmain : (run flag (Except.ok ()) outDir fs).filter isFileFinishedEv
      = fs.map (fileOutcomeEv outDir) :=
    runFiles_filter_fileFinished flag hflag outDir fs.length fs 0 0
  refine ⟨hmain, ?_, ?_, runFiles_countP_finished flag hflag outDir fs.length fs 0 0⟩
  · have h1 : (run flag (Except.ok ()) outDir fs).countP isSuccessNotif
        = ((run flag (Except.ok ()) outDir fs).filter isFileFinishedEv).countP isSuccessNotif := by
      rw [List.countP_filter]
      exact (List.countP_congr (fun x _ => by rw [successNotif_and_fileFinished])).symm
    rw [h1, hmain, List.countP_map, List.countP_eq_length_filter]
    congr 1
    apply List.filter_congr
    intro f _
    exact successNotif_outcome outDir f
  · have h1 : (run flag (Except.ok ()) outDir fs).countP isFailureNotif
        = ((run flag (Except.ok ()) outDir fs).filter isFileFinishedEv).countP isFailureNotif := by
      rw [List.countP_filter]
      exact (List.countP_congr (fun x _ => by rw [failureNotif_and_fileFinished])).symm
    rw [h1, hmain, List.countP_map, List.countP_eq_length_filter]
    congr 1
    apply List.filter_congr
    intro f _
    exact failureNotif_outcome outDir f

/-- Witness for C3: a three-file batch whose middle file raises. -/
theorem c3_per_file_fault_isolation_witness :
    (run alwaysRun (Except.ok ()) "/out" [sampleFile, badFile, sampleFile]).filter
        isFileFinishedEv
      = [sampleFile, badFile, sampleFile].map (fileOutcomeEv "/out") ∧
    (run alwaysRun (Except.ok ()) "/out" [sampleFile, badFile, sampleFile]).countP
        isSuccessNotif
      = ([sampleFile, badFile, sampleFile].filter fileOk).length ∧
    (run alwaysRun (Except.ok ()) "/out" [sampleFile, badFile, sampleFile]).countP
        isFailureNotif
      = ([sampleFile, badFile, sampleFile].filter (fun f => !fileOk f)).length ∧
    (run alwaysRun (Except.ok ()) "/out" [sampleFile, badFile, sampleFile]).countP
        isFinishedEv = 1 :=
  c3_per_file_fault_isolation alwaysRun "/out" [sampleFile, badFile, sampleFile]
    (fun _ => rfl)

/-- With the flag never cleared, the string `process_page` returns does not
depend on the flag-read index. -/
theorem processPageAux_fst_true (flag : Nat → Bool) (hflag : ∀ s, flag s = true)
    (ocr : Nat → Except String String) (p tp : Nat) : ∀ fuel a t u,
    (processPageAux flag ocr p tp fuel a t).1 = (processPageAux alwaysRun ocr p tp fuel a u).1 := by
  intro fuel
  induction fuel with
  | zero => intro a t u; rfl
  | succ n ih =>
    intro a t u
    simp only [processPageAux, hflag, alwaysRun, if_true]
    cases hocr : ocr a with
    | ok text => rfl
    | error e =>
      by_cases hA : MAX_RETRIES - 1 ≤ a
      · simp only [hA, if_true]
      · simp only [hA, if_false]
        exact ih (a + 1) (t + 1) (u + 1)

/-- With the flag never cleared, the texts collected by the page
comprehension do not depend on the flag-read index. -/
theorem processPages_fst_true (flag : Nat → Bool) (hflag : ∀ s, flag s = true)
    (ocr : Nat → Nat → Except String String) (tp : Nat) : ∀ n i t u,
    (processPages flag ocr tp n i t).1 = (processPages alwaysRun ocr tp n i u).1 := by
  intro n
  induction n with
  | zero => intro i t u; rfl
  | succ m ih =>
    intro i t u
    simp only [processPages, hflag, alwaysRun, if_true]
    exact congrArg₂ List.cons
      (processPageAux_fst_true flag hflag (ocr i) (i + 1) tp MAX_RETRIES 0 (t + 1) (u + 1))
      (ih (i + 1) _ _)

/-- Page-level events are not document writes. -/
theorem pageEv_docSaved_none (e : Ev) (h : isPageEv e = true) : docSaved? e = none := by
  cases e <;> simp_all [isPageEv, docSaved?]

/-- With the flag never cleared, the outer loop writes exactly one document
per successfully processed file, in order, at the computed output path, with
the content assembled from that file's per-page texts. -/
theorem runFiles_filterMap_docSaved (flag : Nat → Bool) (hflag : ∀ s, flag s = true)
    (outDir : String) (total : Nat) :
    ∀ fs idx t, (runFiles flag outDir total fs idx t).filterMap docSaved?
      = (fs.filter fileOk).map
          (fun f => (outputPath outDir f.path, create_word_document (docContent f))) := by
  intro fs
  induction fs with
  | nil => intro idx t; simp [runFiles, docSaved?]
  | cons f rest ih =>
    intro idx t
    simp only [runFiles, hflag, if_true]
    cases hc : f.convert with
    | error e =>
      cases hs : f.save with
      | error e2 => simp [List.filterMap_cons, docSaved?, ih, fileOk, hc, hs]
      | ok u => simp [List.filterMap_cons, docSaved?, ih, fileOk, hc, hs]
    | ok n =>
      have hpages : ((processPages flag f.ocr n n 0 (t + 1)).2.2).filterMap docSaved? = [] := by
        rw [List.filterMap_eq_nil_iff]
        intro a ha
        exact pageEv_docSaved_none a (processPages_events_page flag f.ocr n n 0 (t + 1) a ha)
      cases hs : f.save with
      | error e2 =>
        simp [List.filterMap_cons, List.filterMap_append, hpages, hflag, docSaved?,
          ih, fileOk, hc, hs]
      | ok u =>
        have htexts : (processPages flag f.ocr n n 0 (t + 1)).1 = pagesTexts f.ocr n :=
          processPages_fst_true flag hflag f.ocr n n 0 (t + 1) 0
        simp [List.filterMap_cons, List.filterMap_append, hpages, hflag, docSaved?,
          ih, fileOk, hc, hs, htexts, docContent]

/-- The body text of the generated document is exactly the markdown string
handed to `create_word_document`: splitting into paragraphs loses nothing. -/
theorem bodyText_create_word_document (md : String) :
    (create_word_document md).bodyText = md := by
  simp only [create_word_document, Docx.bodyText, pySplitLines, List.map_map]
  rw [show (String.data ∘ String.mk) = id from rfl, List.map_id, List.intercalate_splitOn]

/-- C4: with the flag never cleared, exactly one output document is written
per successfully processed input file, at the path computed from the input
name, and its body is the per-page OCR results in page order joined by the
separator `"\n\n---\n\n"` (see `docContent`); `create_word_document` turns
that body into one paragraph per line under the fixed heading.
(functional_correctness) -/
theorem c4_output_document_per_file :
    (∀ (flag : Nat → Bool) (outDir : String) (fs : List FileSpec), (∀ s, flag s = true) →
      (run flag (Except.ok ()) outDir fs).filterMap docSaved?
        = (fs.filter fileOk).map
            (fun f => (outputPath outDir f.path, create_word_document (docContent f)))) ∧
    (∀ f : FileSpec, ∀ n, f.convert = Except.ok n →
      docContent f = String.intercalate "\n\n---\n\n" (pagesTexts f.ocr n)) ∧
    (∀ md : String, (create_word_document md).bodyText = md) := by
  refine ⟨?_, ?_, fun md => bodyText_create_word_document md⟩
  · intro flag outDir fs hflag
    exact runFiles_filterMap_docSaved flag hflag outDir fs.length fs 0 0
  · intro f n hc
    simp [docContent, hc]

/-- Witness for C4 at concrete inputs. -/
theorem c4_output_document_per_file_witness :
    (run alwaysRun (Except.ok ()) "/out" [twoPageFile]).filterMap docSaved?
      = ([twoPageFile].filter fileOk).map
          (fun f => (outputPath "/out" f.path, create_word_document (docContent f))) ∧
    docContent twoPageFile = String.intercalate "\n\n---\n\n" (pagesTexts twoPageFile.ocr 2) ∧
    (create_word_document "a\nb").bodyText = "a\nb" :=
  ⟨c4_output_document_per_file.1 alwaysRun "/out" [twoPageFile] (fun _ => rfl),
   c4_output_document_per_file.2.1 twoPageFile 2 rfl,
   c4_output_document_per_file.2.2 "a\nb"⟩

/-- C5: a configuration failure (lines 74-80) makes `run` emit the error
signal exactly once and return before the file loop: the trace is the single
error event — no per-file notification, no document write, and no
batch-completion signal.  (error_handling) -/
theorem c5_config_failure_aborts_batch :
    ∀ (flag : Nat → Bool) (outDir : String) (fs : List FileSpec) (e : String),
      run flag (Except.error e) outDir fs = [Ev.errorSig e] ∧
      (run flag (Except.error e) outDir fs).countP isFileFinishedEv = 0 ∧
      (run flag (Except.error e) outDir fs).filterMap docSaved? = [] ∧
      (run flag (Except.error e) outDir fs).countP isFinishedEv = 0 := by
  intro flag outDir fs e
  refine ⟨rfl, ?_, ?_, ?_⟩
  all_goals simp [run, isFileFinishedEv, docSaved?, isFinishedEv]

/-- C6: a page whose OCR call fails on the attempts before `k` (with
`1 ≤ k < MAX_RETRIES`) and succeeds on attempt `k` yields the successful
response text, and no skip notice is emitted for that page.
(functional_correctness) -/
theorem c6_retry_then_success :
    ∀ (flag : Nat → Bool) (ocr : Nat → Except String String) (p tp t k : Nat)
      (txt : String), (∀ s, flag s = true) → 1 ≤ k → k < MAX_RETRIES →
      (∀ j, j < k → ∃ e, ocr j = Except.error e) → ocr k = Except.ok txt →
      (process_page flag ocr p tp t).1 = txt ∧
      ((process_page flag ocr p tp t).2.2).countP isPageSkipEv = 0 := by
  intro flag ocr p tp t k txt hflag hk1 hk3 hfail hok
  have hk : k = 1 ∨ k = 2 := by
    simp only [MAX_RETRIES] at hk3
    omega
  rcases hk with hk | hk
  · obtain ⟨e0, h0⟩ := hfail 0 (by omega)
    subst hk
    constructor
    · simp [process_page, MAX_RETRIES, processPageAux, hflag, h0, hok]
    · simp [process_page, MAX_RETRIES, processPageAux, hflag, h0, hok, isPageSkipEv]
  · obtain ⟨e0, h0⟩ := hfail 0 (by omega)
    obtain ⟨e1, h1⟩ := hfail 1 (by omega)
    subst hk
    constructor
    · simp [process_page, MAX_RETRIES, processPageAux, hflag, h0, h1, hok]
    · simp [process_page, MAX_RETRIES, processPageAux, hflag, h0, h1, hok, isPageSkipEv]

/-- Witness for C6: a page that fails once and succeeds on the second
attempt. -/
theorem c6_retry_then_success_witness :
    (process_page alwaysRun
        (fun a => if a = 0 then Except.error "boom" else Except.ok "TXT") 1 3 0).1 = "TXT" ∧
    ((process_page alwaysRun
        (fun a => if a = 0 then Except.error "boom" else Except.ok "TXT") 1 3 0).2.2).countP
        isPageSkipEv = 0 :=
  c6_retry_then_success alwaysRun _ 1 3 0 1 "TXT" (fun _ => rfl) (by decide) (by decide)
    (fun j hj => ⟨"boom", by interval_cases j; rfl⟩) rfl

/-- Characterisation of the string returned by the retry loop: whatever the
flag and attempt outcomes, it is the empty string (cancellation or the dead
fall-through of line 126), a text some attempt returned, or the diagnostic
string built from the exception of a final attempt. -/
theorem processPageAux_result_cases (flag : Nat → Bool) (ocr : Nat → Except String String)
    (p tp : Nat) : ∀ fuel a t,
    (processPageAux flag ocr p tp fuel a t).1 = "" ∨
    (∃ k, a ≤ k ∧ k < a + fuel ∧
      ocr k = Except.ok ((processPageAux flag ocr p tp fuel a t).1)) ∨
    (∃ k e, a ≤ k ∧ k < a + fuel ∧ MAX_RETRIES - 1 ≤ k ∧ ocr k = Except.error e ∧
      (processPageAux flag ocr p tp fuel a t).1 = errPageString p e) := by
  intro fuel
  induction fuel with
  | zero => intro a t; left; rfl
  | succ n ih =>
    intro a t
    by_cases hf : flag t
    · cases hocr : ocr a with
      | ok text =>
        right; left
        refine ⟨a, Nat.le_refl a, by omega, ?_⟩
        simp [processPageAux, hf, hocr]
      | error e =>
        by_cases hA : MAX_RETRIES - 1 ≤ a
        · right; right
          refine ⟨a, e, Nat.le_refl a, by omega, hA, hocr, ?_⟩
          simp [processPageAux, hf, hocr, hA]
        · have hres : (processPageAux flag ocr p tp (n + 1) a t).1
              = (processPageAux flag ocr p tp n (a + 1) (t + 1)).1 := by
            simp [processPageAux, hf, hocr, hA]
          rcases ih (a + 1) (t + 1) with h | ⟨k, hk1, hk2, hk3⟩ | ⟨k, e2, hk1, hk2, hk3, hk4, hk5⟩
          · left; rw [hres]; exact h
          · right; left
            exact ⟨k, by omega, by omega, by rw [hres]; exact hk3⟩
          · right; right
            exact ⟨k, e2, by omega, by omega, hk3, hk4, by rw [hres]; exact hk5⟩
    · left
      simp [processPageAux, hf]

/-- C7: for every cancellation-flag behaviour and every sequence of attempt
outcomes (success or exception on each attempt), `process_page` returns a
definite string — the empty string, a successful response text from one of
the first `MAX_RETRIES` attempts, or the diagnostic string built from the
final attempt's exception.  The embedding returns `String` rather than
`Except`, mirroring that the `try/except` of lines 116-125 consumes every
exception of the external call; the function is structurally recursive, so
it terminates on all inputs.  (safety) -/
theorem c7_page_errors_never_escape :
    ∀ (flag : Nat → Bool) (ocr : Nat → Except String String) (p tp t : Nat),
      (process_page flag ocr p tp t).1 = "" ∨
      (∃ k, k < MAX_RETRIES ∧ ocr k = Except.ok ((process_page flag ocr p tp t).1)) ∨
      (∃ e, ocr (MAX_RETRIES - 1) = Except.error e ∧
        (process_page flag ocr p tp t).1 = errPageString p e) := by
  intro flag ocr p tp t
  rcases processPageAux_result_cases flag ocr p tp MAX_RETRIES 0 t with
    h | ⟨k, _, hk2, hk3⟩ | ⟨k, e, _, hk2, hk3, hk4, hk5⟩
  · left; exact h
  · right; left
    exact ⟨k, by simpa using hk2, hk3⟩
  · right; right
    have hkeq : k = MAX_RETRIES - 1 := by
      simp only [MAX_RETRIES] at hk2 hk3
      simp only [MAX_RETRIES]
      omega
    exact ⟨e, by rw [← hkeq]; exact hk4, hk5⟩

/-- Page-level events are not file-start notices. -/
theorem pageEv_startedName_none (e : Ev) (h : isPageEv e = true) : startedName? e = none := by
  cases e <;> simp_all [isPageEv, startedName?]

/-- For every flag behaviour, the files the outer loop starts form an
initial segment of the submitted list, in submission order — each file is
started at most once. -/
theorem runFiles_started_take (flag : Nat → Bool) (outDir : String) (total : Nat) :
    ∀ fs idx t, ∃ k, k ≤ fs.length ∧
      (runFiles flag outDir total fs idx t).filterMap startedName?
        = (fs.map (fun f => basename f.path)).take k := by
  intro fs
  induction fs with
  | nil => intro idx t; exact ⟨0, Nat.le_refl 0, by simp [runFiles, startedName?]⟩
  | cons f rest ih =>
    intro idx t
    by_cases hf : flag t
    · cases hc : f.convert with
      | error e =>
        obtain ⟨k, hk, hek⟩ := ih (idx + 1) (t + 1)
        refine ⟨k + 1, by simp; omega, ?_⟩
        simp only [runFiles, hf, if_true, hc, List.filterMap_cons, startedName?]
        simp [hek]
      | ok n =>
        obtain ⟨k, hk, hek⟩ := ih (idx + 1) ((processPages flag f.ocr n n 0 (t + 1)).2.1 + 1)
        have hpages : ((processPages flag f.ocr n n 0 (t + 1)).2.2).filterMap startedName?
            = [] := by
          rw [List.filterMap_eq_nil_iff]
          intro a ha
          exact pageEv_startedName_none a (processPages_events_page flag f.ocr n n 0 (t + 1) a ha)
        refine ⟨k + 1, by simp; omega, ?_⟩
        simp only [runFiles, hf, if_true, hc, List.filterMap_cons, List.filterMap_append,
          startedName?, hpages]
        by_cases hf2 : flag (processPages flag f.ocr n n 0 (t + 1)).2.1
        · cases hs : f.save with
          | error e2 => simp [hf2, hs, startedName?, hek]
          | ok u => simp [hf2, hs, startedName?, hek]
        · simp [hf2, hek]
    · exact ⟨0, Nat.zero_le _, by simp [runFiles, hf, startedName?]⟩

/-- C8: the worker visits files in exactly the submitted order and each at
most once — the names it announces are always an initial segment of the
submitted list — and on an empty list it emits no `file_finished`
notification and exactly one batch-completion signal.
(functional_correctness) -/
theorem c8_visit_order_and_empty_batch :
    (∀ (flag : Nat → Bool) (config : Except String Unit) (outDir : String)
        (fs : List FileSpec), ∃ k, k ≤ fs.length ∧
      (run flag config outDir fs).filterMap startedName?
        = (fs.map (fun f => basename f.path)).take k) ∧
    (∀ (flag : Nat → Bool) (outDir : String),
      run flag (Except.ok ()) outDir [] = [Ev.finished] ∧
      (run flag (Except.ok ()) outDir []).countP isFileFinishedEv = 0 ∧
      (run flag (Except.ok ()) outDir []).countP isFinishedEv = 1) := by
  constructor
  · intro flag config outDir fs
    cases config with
    | error e => exact ⟨0, Nat.zero_le _, by simp [run, startedName?]⟩
    | ok u => exact runFiles_started_take flag outDir fs.length fs 0 0
  · intro flag outDir
    refine ⟨rfl, ?_, ?_⟩
    all_goals simp [run, runFiles, isFileFinishedEv, isFinishedEv]

/-- C10: the output document path is a function of the input's base name
alone (lines 99-101 use only `basename(pdf_path)`), so two distinct inputs
with the same base name map to the same output path; in a batch containing
both, the later file's document is the one left at that path (the earlier
write is overwritten).  (functional_correctness) -/
theorem c10_output_path_collision :
    (∀ outDir p q : String, basename p = basename q →
      outputPath outDir p = outputPath outDir q) ∧
    fileDocA.path ≠ fileDocB.path ∧
    outputPath "/out" fileDocA.path = outputPath "/out" fileDocB.path ∧
    lastDocAt (run alwaysRun (Except.ok ()) "/out" [fileDocA, fileDocB])
        (outputPath "/out" fileDocA.path)
      = some (create_word_document "T2") := by
  refine ⟨?_, by decide, rfl, by decide⟩
  intro outDir p q h
  unfold outputPath
  rw [h]

/-- Witness for C10: two distinct paths with equal base names. -/
theorem c10_output_path_collision_witness :
    outputPath "/out" "/x/a.pdf" = outputPath "/out" "/y/a.pdf" :=
  c10_output_path_collision.1 "/out" "/x/a.pdf" "/y/a.pdf" (by decide)

/-- Looking up an alphabet character recovers its six-bit value. -/
theorem b64index_b64char : ∀ i, i < 64 → b64index (b64char i) = some i := by decide

/-- Alphabet characters are never the padding character. -/
theorem b64char_ne_pad : ∀ i, i < 64 → b64char i ≠ '=' := by decide

/-- `base64.b64decode` is a left inverse of `base64.b64encode` on byte
lists. -/
theorem b64decodeBytes_encodeBytes : ∀ bs : List Nat, (∀ x ∈ bs, x < 256) →
    b64decodeBytes (b64encodeBytes bs) = some bs
  | [] => fun _ => rfl
  | [a] => fun h => by
    have ha : a < 256 := h a (by simp)
    have h0 : a / 4 < 64 := by omega
    have h1 : a % 4 * 16 < 64 := by omega
    simp only [b64encodeBytes, b64decodeBytes, b64index_b64char _ h0, b64index_b64char _ h1]
    simp
    omega
  | [a, b] => fun h => by
    have ha : a < 256 := h a (by simp)
    have hb : b < 256 := h b (by simp)
    have h0 : a / 4 < 64 := by omega
    have h1 : a % 4 * 16 + b / 16 < 64 := by omega
    have h2 : b % 16 * 4 < 64 := by omega
    simp only [b64encodeBytes, b64decodeBytes, b64index_b64char _ h0, b64index_b64char _ h1,
      b64index_b64char _ h2]
    rw [if_neg (b64char_ne_pad _ h2)]
    simp
    omega
  | a :: b :: c :: rest => fun h => by
    have ha : a < 256 := h a (by simp)
    have hb : b < 256 := h b (by simp)
    have hc : c < 256 := h c (by simp)
    have h0 : a / 4 < 64 := by omega
    have h1 : a % 4 * 16 + b / 16 < 64 := by omega
    have h2 : b % 16 * 4 + c / 64 < 64 := by omega
    have h3 : c % 64 < 64 := by omega
    have ih := b64decodeBytes_encodeBytes rest (fun x hx => h x (by simp [hx]))
    simp only [b64encodeBytes, b64decodeBytes, b64index_b64char _ h0, b64index_b64char _ h1,
      b64index_b64char _ h2, b64index_b64char _ h3]
    rw [if_neg (b64char_ne_pad _ h2), if_neg (b64char_ne_pad _ h3), ih]
    simp
    omega

/-- UTF-8 encoding of a character is never empty. -/
theorem utf8EncodeChar_ne_nil (c : Nat) : utf8EncodeChar c ≠ [] := by
  unfold utf8EncodeChar
  split_ifs <;> simp

/-- UTF-8 encoding of a valid scalar value produces only bytes. -/
theorem utf8EncodeChar_lt_256 (c : Nat) (hv : Nat.isValidChar c) :
    ∀ b ∈ utf8EncodeChar c, b < 256 := by
  have hc : c < 1114112 := by
    rcases hv with h | ⟨h1, h2⟩ <;> omega
  intro b hb
  unfold utf8EncodeChar at hb
  split_ifs at hb <;> simp at hb <;> omega

set_option maxHeartbeats 1000000 in
set_option maxRecDepth 4096 in
/-- Decoding one UTF-8 sequence undoes encoding one valid scalar value, for
any trailing bytes. -/
theorem utf8DecodeChar_encodeChar (c : Nat) (hv : Nat.isValidChar c) (tl : List Nat) :
    utf8DecodeChar (utf8EncodeChar c ++ tl) = some (c, tl) := by
  have hc : c < 1114112 := by
    rcases hv with h | ⟨h1, h2⟩ <;> omega
  have hs : c < 55296 ∨ 57343 < c := by
    rcases hv with h | ⟨h1, h2⟩ <;> omega
  unfold utf8EncodeChar
  by_cases h1 : c < 128
  · simp only [h1, if_true, List.cons_append, List.nil_append]
    simp only [utf8DecodeChar]
    rw [if_pos h1]
  · by_cases h2 : c < 2048
    · simp only [h1, h2, if_false, if_true, List.cons_append, List.nil_append]
      simp only [utf8DecodeChar]
      split_ifs <;>
        first
        | (simp only [Option.some.injEq, Prod.mk.injEq, Nat.add_sub_cancel_left];
             exact ⟨by omega, by trivial⟩)
        | (exfalso; omega)
    · by_cases h3 : c < 65536
      · simp only [h1, h2, h3, if_false, if_true, List.cons_append, List.nil_append]
        simp only [utf8DecodeChar]
        split_ifs <;>
          first
          | (simp only [Option.some.injEq, Prod.mk.injEq, Nat.add_sub_cancel_left];
             exact ⟨by omega, by trivial⟩)
          | (exfalso; omega)
      · simp only [h1, h2, h3, if_false, List.cons_append, List.nil_append]
        simp only [utf8DecodeChar]
        split_ifs <;>
          first
          | (simp only [Option.some.injEq, Prod.mk.injEq, Nat.add_sub_cancel_left];
             exact ⟨by omega, by trivial⟩)
          | (exfalso; omega)

/-- The UTF-8 encoding of a code-point list is at least as long as the
list. -/
theorem utf8Encode_length_ge : ∀ cs : List Nat, cs.length ≤ (utf8Encode cs).length := by
  intro cs
  induction cs with
  | nil => simp [utf8Encode]
  | cons c cs' ih =>
    simp only [utf8Encode, List.map_cons, List.flatten_cons, List.length_cons,
      List.length_append]
    have h1 : 1 ≤ (utf8EncodeChar c).length := by
      unfold utf8EncodeChar
      split_ifs <;> simp
    have h2 := ih
    simp only [utf8Encode] at h2
    omega

/-- The fuelled UTF-8 decoding loop undoes encoding, given fuel for every
character. -/
theorem utf8DecodeAux_encode : ∀ cs : List Nat, (∀ c ∈ cs, Nat.isValidChar c) →
    ∀ fuel, cs.length ≤ fuel → utf8DecodeAux fuel (utf8Encode cs) = some cs := by
  intro cs
  induction cs with
  | nil =>
    intro _ fuel _
    simp [utf8Encode, utf8DecodeAux]
  | cons c cs' ih =>
    intro hv fuel hlen
    cases fuel with
    | zero => simp at hlen
    | succ f =>
      have hvc : Nat.isValidChar c := hv c (by simp)
      have hdc := utf8DecodeChar_encodeChar c hvc (utf8Encode cs')
      cases hE : utf8EncodeChar c with
      | nil => exact absurd hE (utf8EncodeChar_ne_nil c)
      | cons b bs =>
        have henc : utf8Encode (c :: cs') = b :: (bs ++ utf8Encode cs') := by
          simp [utf8Encode, hE]
        rw [henc]
        rw [hE] at hdc
        simp only [List.cons_append] at hdc
        simp only [utf8DecodeAux, hdc]
        rw [ih (fun x hx => hv x (by simp [hx])) f (by simp at hlen; omega)]
        rfl

/-- `bytes.decode('utf-8')` undoes `str.encode('utf-8')` on valid scalar
values. -/
theorem utf8Decode_encode (cs : List Nat) (hv : ∀ c ∈ cs, Nat.isValidChar c) :
    utf8Decode (utf8Encode cs) = some cs :=
  utf8DecodeAux_encode cs hv (utf8Encode cs).length (utf8Encode_length_ge cs)

/-- The encoding pipeline of `save_config` produces a non-empty stored
string for a non-empty key. -/
theorem b64encodeBytes_ne_nil (bs : List Nat) (h : bs ≠ []) : b64encodeBytes bs ≠ [] := by
  match bs with
  | [] => exact absurd rfl h
  | [a] => simp [b64encodeBytes]
  | [a, b] => simp [b64encodeBytes]
  | a :: b :: c :: rest => simp [b64encodeBytes]

/-- UTF-8 encoding of valid scalar values produces only bytes. -/
theorem utf8Encode_bytes_lt (cs : List Nat) (hv : ∀ c ∈ cs, Nat.isValidChar c) :
    ∀ b ∈ utf8Encode cs, b < 256 := by
  induction cs with
  | nil => simp [utf8Encode]
  | cons c cs' ih =>
    intro b hb
    simp only [utf8Encode, List.map_cons, List.flatten_cons, List.mem_append] at hb
    rcases hb with hb | hb
    · exact utf8EncodeChar_lt_256 c (hv c (by simp)) b hb
    · exact ih (fun x hx => hv x (by simp [hx])) b (by simpa [utf8Encode] using hb)

/-- C9: configuration round-trip — for any API-key string, output directory
and dark-mode flag, `save_config` (which stores the key base64-encoded over
its UTF-8 bytes) followed by `load_config` from the fresh UI state restores
exactly the same key, output directory and dark-mode flag, and the `except`
branch is not taken.  (algebraic_relational) -/
theorem c9_config_roundtrip :
    ∀ st : UiState, load_config (save_config st) initialUi = (st, false) := by
  intro st
  cases st with
  | mk a o d =>
    by_cases hk : a = ""
    · subst hk
      rfl
    · have hdata : a.data ≠ [] := by
        intro hnil
        apply hk
        cases a with
        | mk l =>
          simp only [String.data] at hnil
          rw [hnil]
      have hvalid : ∀ c ∈ a.data.map Char.toNat, Nat.isValidChar c := by
        intro c hc
        simp only [List.mem_map] at hc
        obtain ⟨ch, _, hch⟩ := hc
        rw [← hch]
        exact ch.valid
      have hbytes : ∀ b ∈ utf8Encode (a.data.map Char.toNat), b < 256 :=
        utf8Encode_bytes_lt _ hvalid
      have hne : utf8Encode (a.data.map Char.toNat) ≠ [] := by
        cases hD : a.data with
        | nil => exact absurd hD hdata
        | cons ch tail =>
          simp only [hD, List.map_cons, utf8Encode, List.flatten_cons]
          intro hcontra
          exact utf8EncodeChar_ne_nil ch.toNat (List.append_eq_nil.mp hcontra).1
      have hstored : String.mk (b64encodeBytes (utf8Encode (a.data.map Char.toNat))) ≠ "" := by
        intro hcontra
        have hd := congrArg String.data hcontra
        simp only [String.data] at hd
        exact b64encodeBytes_ne_nil _ hne hd
      simp only [save_config, load_config]
      rw [if_neg hstored]
      rw [b64decodeBytes_encodeBytes _ hbytes]
      simp only [Option.bind]
      rw [utf8Decode_encode _ hvalid]
      simp only [List.map_map]
      rw [show (Char.ofNat ∘ Char.toNat) = id from funext Char.ofNat_toNat, List.map_id]
